import Mathlib

/-!
Verification of the `simulate` core of `privacysim.py` (PowerSIm).

The Python function `simulate` iterates a deterministic update rule on four
scalars — the three power shares `A`, `C`, `S` and the PET adoption rate `P` —
and emits four `(t, metric, value)` rows per loop iteration, before applying
that iteration's update.  We embed the arithmetic over `ℚ` (the source's float
formulas taken exactly), the row list as `List (ℤ × String × ℚ)`, and the loop
`for t in range(timesteps + 1)` via `Int.toNat (timesteps + 1)`, which matches
Python `range` semantics for negative bounds.
-/

namespace PowerSim

/-- The five constant dial parameters of one `simulate` call:
`step`, `reg_strength`, `sec_pressure`, `innovation`, `pet_efficiency`. -/
structure SimParams where
  step : ℚ
  reg_strength : ℚ
  sec_pressure : ℚ
  innovation : ℚ
  pet_efficiency : ℚ

/-- The mutable simulation state: power shares `A`, `C`, `S` and PET rate `P`. -/
structure SimState where
  A : ℚ
  C : ℚ
  S : ℚ
  P : ℚ

/-- Clamp `x` into `[0, 1]`, the source's `np.clip(x, 0, 1)`. -/
def clip01 (x : ℚ) : ℚ := min 1 (max x 0)

/-- The corporate power delta `delta_C = (innovation * (1 - P *
pet_efficiency) - reg_strength * 0.4 - sec_pressure * 0.3) * step`
(source lines 59–63). -/
def delta_C (p : SimParams) (s : SimState) : ℚ :=
  (p.innovation * (1 - s.P * p.pet_efficiency)
    - p.reg_strength * 0.4
    - p.sec_pressure * 0.3) * p.step

/-- The state power delta `delta_S = (sec_pressure * 0.6 + reg_strength *
0.4 - P * 0.1) * step` (source lines 65–69). -/
def delta_S (p : SimParams) (s : SimState) : ℚ :=
  (p.sec_pressure * 0.6 + p.reg_strength * 0.4 - s.P * 0.1) * p.step

/-- The individual power delta `delta_A = -delta_C - delta_S` (source line 71). -/
def delta_A (p : SimParams) (s : SimState) : ℚ :=
  -delta_C p s - delta_S p s

/-- The clamped corporate share `C = np.clip(C + delta_C, 0, 1)` (source line 74). -/
def clampedC (p : SimParams) (s : SimState) : ℚ := clip01 (s.C + delta_C p s)

/-- The clamped state share `S = np.clip(S + delta_S, 0, 1)` (source line 75). -/
def clampedS (p : SimParams) (s : SimState) : ℚ := clip01 (s.S + delta_S p s)

/-- The clamped individual share `A = np.clip(A + delta_A, 0, 1)` (source line 76). -/
def clampedA (p : SimParams) (s : SimState) : ℚ := clip01 (s.A + delta_A p s)

/-- The renormalization total `total = A + C + S`, computed on the clamped shares (source line 77). -/
def renormTotal (p : SimParams) (s : SimState) : ℚ :=
  clampedA p s + clampedC p s + clampedS p s

/-- The individual share after the `if total > 0` renormalization branch
(source lines 78–79). -/
def renormA (p : SimParams) (s : SimState) : ℚ :=
  if 0 < renormTotal p s then clampedA p s / renormTotal p s else clampedA p s

/-- The corporate share after the `if total > 0` renormalization branch. -/
def renormC (p : SimParams) (s : SimState) : ℚ :=
  if 0 < renormTotal p s then clampedC p s / renormTotal p s else clampedC p s

/-- The state share after the `if total > 0` renormalization branch. -/
def renormS (p : SimParams) (s : SimState) : ℚ :=
  if 0 < renormTotal p s then clampedS p s / renormTotal p s else clampedS p s

/-- The PET adoption delta `delta_P = (reg_strength * 0.5 + A * 0.3 -
innovation * 0.2 - sec_pressure * 0.2 - C * 0.3) * step`, where `A` and `C`
are the values already reassigned by the clamp-and-renormalize block
(source lines 82–88). -/
def delta_P (p : SimParams) (s : SimState) : ℚ :=
  (p.reg_strength * 0.5
    + renormA p s * 0.3
    - p.innovation * 0.2
    - p.sec_pressure * 0.2
    - renormC p s * 0.3) * p.step

/-- One full loop-body update of the state (source lines 58–89):
power deltas, clamping, renormalization, then PET drift with clamping. -/
def simStep (p : SimParams) (s : SimState) : SimState :=
  { A := renormA p s
    C := renormC p s
    S := renormS p s
    P := clip01 (s.P + delta_P p s) }

/-- The state after `n` loop-body updates from `s`. -/
def stateAt (p : SimParams) (s : SimState) : ℕ → SimState
  | 0 => s
  | n + 1 => simStep p (stateAt p s n)

/-- The four rows `rows.extend([...])` appends for timestep `t`
(source lines 51–56). -/
def emitRows (t : ℤ) (s : SimState) : List (ℤ × String × ℚ) :=
  [(t, "Individual power", s.A),
   (t, "Corporate power", s.C),
   (t, "State power", s.S),
   (t, "PET adoption", s.P)]

/-- The emission loop: `n` remaining iterations, current timestep label `t`,
current state `s`; each iteration emits the snapshot first, then updates. -/
def runFrom (p : SimParams) : ℕ → ℤ → SimState → List (ℤ × String × ℚ)
  | 0, _, _ => []
  | n + 1, t, s => emitRows t s ++ runFrom p n (t + 1) (simStep p s)

/-- The entry point `simulate` (source lines 32–92): run
`for t in range(timesteps + 1)` from the raw initial values and return the
accumulated rows.  `Int.toNat` of the
bound reproduces Python `range`, which is empty for a non-positive bound. -/
def simulate (p_indiv0 p_corp0 p_state0 pet0 : ℚ) (timesteps : ℤ)
    (step reg_strength sec_pressure innovation pet_efficiency : ℚ) :
    List (ℤ × String × ℚ) :=
  runFrom ⟨step, reg_strength, sec_pressure, innovation, pet_efficiency⟩
    (timesteps + 1).toNat 0 ⟨p_indiv0, p_corp0, p_state0, pet0⟩

/-- Errors the specification's taxonomy names for `simulate`. -/
inductive SimError where
  | invalidParameter : SimError
deriving DecidableEq

/-- A view of `simulate` as a fallible call.  The source body contains no
`raise` and no operation that throws on numeric inputs, so the result is
always returned normally. -/
def simulateResult (p_indiv0 p_corp0 p_state0 pet0 : ℚ) (timesteps : ℤ)
    (step reg_strength sec_pressure innovation pet_efficiency : ℚ) :
    Except SimError (List (ℤ × String × ℚ)) :=
  Except.ok (simulate p_indiv0 p_corp0 p_state0 pet0 timesteps
    step reg_strength sec_pressure innovation pet_efficiency)

/-- Modelled from the claim wording, NOT from the source: a PET delta that
reads the post-clamp but pre-renormalization shares.  Used only to compare
the claim against the source's `delta_P`, which reads the shares after
renormalization. -/
def delta_P_claimed (p : SimParams) (s : SimState) : ℚ :=
  (p.reg_strength * 0.5
    + clampedA p s * 0.3
    - p.innovation * 0.2
    - p.sec_pressure * 0.2
    - clampedC p s * 0.3) * p.step

/-! ### Helper lemmas -/

theorem clip01_nonneg (x : ℚ) : 0 ≤ clip01 x := by
  simp only [clip01, le_min_iff, le_max_iff]
  constructor
  · norm_num
  · right; exact le_refl 0

theorem clip01_le_one (x : ℚ) : clip01 x ≤ 1 := min_le_left _ _

theorem renormTotal_nonneg (p : SimParams) (s : SimState) :
    0 ≤ renormTotal p s := by
  have h1 := clip01_nonneg (s.A + delta_A p s)
  have h2 := clip01_nonneg (s.C + delta_C p s)
  have h3 := clip01_nonneg (s.S + delta_S p s)
  unfold renormTotal clampedA clampedC clampedS
  linarith

theorem simStep_shares_of_pos (p : SimParams) (s : SimState)
    (h : 0 < renormTotal p s) :
    (simStep p s).A = clampedA p s / renormTotal p s ∧
    (simStep p s).C = clampedC p s / renormTotal p s ∧
    (simStep p s).S = clampedS p s / renormTotal p s := by
  simp [simStep, renormA, renormC, renormS, if_pos h]

theorem simStep_shares_of_zero (p : SimParams) (s : SimState)
    (h : renormTotal p s = 0) :
    (simStep p s).A = 0 ∧ (simStep p s).C = 0 ∧ (simStep p s).S = 0 := by
  have h1 := clip01_nonneg (s.A + delta_A p s)
  have h2 := clip01_nonneg (s.C + delta_C p s)
  have h3 := clip01_nonneg (s.S + delta_S p s)
  have htot : clampedA p s + clampedC p s + clampedS p s = 0 := h
  have hA : clampedA p s = 0 := by
    unfold clampedA at htot ⊢; unfold clampedC clampedS at htot; linarith
  have hC : clampedC p s = 0 := by
    unfold clampedC at htot ⊢; unfold clampedA clampedS at htot; linarith
  have hS : clampedS p s = 0 := by
    unfold clampedS at htot ⊢; unfold clampedA clampedC at htot; linarith
  have hlt : ¬ 0 < renormTotal p s := by rw [h]; exact lt_irrefl 0
  simp [simStep, renormA, renormC, renormS, if_neg hlt, hA, hC, hS]

theorem simStep_sum_of_pos (p : SimParams) (s : SimState)
    (h : 0 < renormTotal p s) :
    (simStep p s).A + (simStep p s).C + (simStep p s).S = 1 := by
  obtain ⟨hA, hC, hS⟩ := simStep_shares_of_pos p s h
  rw [hA, hC, hS, div_add_div_same, div_add_div_same, renormTotal]
  exact div_self (ne_of_gt h)

theorem simStep_shares_in_unit (p : SimParams) (s : SimState) :
    0 ≤ (simStep p s).A ∧ (simStep p s).A ≤ 1 ∧
    0 ≤ (simStep p s).C ∧ (simStep p s).C ≤ 1 ∧
    0 ≤ (simStep p s).S ∧ (simStep p s).S ≤ 1 := by
  have h1 := clip01_nonneg (s.A + delta_A p s)
  have h2 := clip01_nonneg (s.C + delta_C p s)
  have h3 := clip01_nonneg (s.S + delta_S p s)
  have h1' := clip01_le_one (s.A + delta_A p s)
  have h2' := clip01_le_one (s.C + delta_C p s)
  have h3' := clip01_le_one (s.S + delta_S p s)
  rcases lt_or_le 0 (renormTotal p s) with hpos | hle
  · obtain ⟨hA, hC, hS⟩ := simStep_shares_of_pos p s hpos
    have htot : renormTotal p s = clampedA p s + clampedC p s + clampedS p s := rfl
    refine ⟨?_, ?_, ?_, ?_, ?_, ?_⟩
    · rw [hA]; exact div_nonneg h1 (le_of_lt hpos)
    · rw [hA, div_le_one hpos, htot]
      unfold clampedA clampedC clampedS; linarith
    · rw [hC]; exact div_nonneg h2 (le_of_lt hpos)
    · rw [hC, div_le_one hpos, htot]
      unfold clampedA clampedC clampedS; linarith
    · rw [hS]; exact div_nonneg h3 (le_of_lt hpos)
    · rw [hS, div_le_one hpos, htot]
      unfold clampedA clampedC clampedS; linarith
  · have hz : renormTotal p s = 0 := le_antisymm hle (renormTotal_nonneg p s)
    obtain ⟨hA, hC, hS⟩ := simStep_shares_of_zero p s hz
    rw [hA, hC, hS]
    norm_num

theorem simStep_pet_in_unit (p : SimParams) (s : SimState) :
    0 ≤ (simStep p s).P ∧ (simStep p s).P ≤ 1 :=
  ⟨clip01_nonneg _, clip01_le_one _⟩

/-- The predicate "all four state components lie in `[0, 1]`". -/
def stateInUnit (s : SimState) : Prop :=
  0 ≤ s.A ∧ s.A ≤ 1 ∧ 0 ≤ s.C ∧ s.C ≤ 1 ∧
    0 ≤ s.S ∧ s.S ≤ 1 ∧ 0 ≤ s.P ∧ s.P ≤ 1

theorem simStep_stateInUnit (p : SimParams) (s : SimState) :
    stateInUnit (simStep p s) := by
  obtain ⟨h1, h2, h3, h4, h5, h6⟩ := simStep_shares_in_unit p s
  obtain ⟨h7, h8⟩ := simStep_pet_in_unit p s
  exact ⟨h1, h2, h3, h4, h5, h6, h7, h8⟩

theorem runFrom_length (p : SimParams) :
    ∀ (n : ℕ) (t : ℤ) (s : SimState), (runFrom p n t s).length = 4 * n := by
  intro n
  induction n with
  | zero => intro t s; rfl
  | succ m ih =>
    intro t s
    simp only [runFrom, List.length_append, ih, emitRows, List.length_cons,
      List.length_nil]
    ring

theorem stateAt_succ_left (p : SimParams) (s : SimState) :
    ∀ n : ℕ, stateAt p s (n + 1) = stateAt p (simStep p s) n := by
  intro n
  induction n with
  | zero => rfl
  | succ m ih =>
    show simStep p (stateAt p s (m + 1)) = simStep p (stateAt p (simStep p s) m)
    rw [ih]

theorem runFrom_eq_flatMap (p : SimParams) :
    ∀ (n : ℕ) (t : ℤ) (s : SimState),
      runFrom p n t s =
        (List.range n).flatMap (fun k => emitRows (t + k) (stateAt p s k)) := by
  intro n
  induction n with
  | zero => intro t s; rfl
  | succ m ih =>
    intro t s
    rw [runFrom, ih, List.range_succ_eq_map]
    simp only [List.flatMap_cons, List.flatMap_map]
    congr 1
    · simp [stateAt]
    · apply List.flatMap_congr
      intro k _
      rw [← stateAt_succ_left]
      congr 1
      push_cast
      ring

theorem runFrom_value_bounds (p : SimParams) :
    ∀ (n : ℕ) (t : ℤ) (s : SimState), stateInUnit s →
      ∀ r ∈ runFrom p n t s, 0 ≤ r.2.2 ∧ r.2.2 ≤ 1 := by
  intro n
  induction n with
  | zero => intro t s _ r hr; simp [runFrom] at hr
  | succ m ih =>
    intro t s hs r hr
    rw [runFrom, List.mem_append] at hr
    rcases hr with hr | hr
    · obtain ⟨hA0, hA1, hC0, hC1, hS0, hS1, hP0, hP1⟩ := hs
      simp only [emitRows, List.mem_cons, List.not_mem_nil, or_false] at hr
      rcases hr with h | h | h | h <;> subst h
      · exact ⟨hA0, hA1⟩
      · exact ⟨hC0, hC1⟩
      · exact ⟨hS0, hS1⟩
      · exact ⟨hP0, hP1⟩
    · exact ih (t + 1) (simStep p s) (simStep_stateInUnit p s) r hr

theorem simulate_eq_flatMap (a b c d : ℚ) (T : ℤ)
    (st rg se innov eff : ℚ) (hT : 0 ≤ T) :
    simulate a b c d T st rg se innov eff =
      (List.range (T.toNat + 1)).flatMap
        (fun k => emitRows (k : ℤ)
          (stateAt ⟨st, rg, se, innov, eff⟩ ⟨a, b, c, d⟩ k)) := by
  have hn : (T + 1).toNat = T.toNat + 1 := by omega
  unfold simulate
  rw [hn, runFrom_eq_flatMap]
  apply List.flatMap_congr
  intro k _
  rw [zero_add]

/-! ### Claim theorems -/

/-- Claim C7: the three unclamped step deltas sum to exactly 0 before any
clamping: `delta_A` is defined as `-delta_C - delta_S`, for all parameter
and state values. -/
theorem deltas_zero_sum (p : SimParams) (s : SimState) :
    delta_A p s = -delta_C p s - delta_S p s ∧
    delta_A p s + delta_C p s + delta_S p s = 0 := by
  constructor
  · rfl
  · unfold delta_A; ring

/-- Claim C3: for `timesteps ≥ 0`, `simulate` returns one quadruple per
timestep `t` from `0` to `timesteps` inclusive, in ascending order, the
quadruple at `t` being the state after exactly `t` updates (emission before
update), and the output has exactly `4 * (timesteps + 1)` points. -/
theorem simulate_output_shape (a b c d : ℚ) (T : ℤ)
    (st rg se innov eff : ℚ) (hT : 0 ≤ T) :
    simulate a b c d T st rg se innov eff =
      (List.range (T.toNat + 1)).flatMap
        (fun k => emitRows (k : ℤ)
          (stateAt ⟨st, rg, se, innov, eff⟩ ⟨a, b, c, d⟩ k)) ∧
    (simulate a b c d T st rg se innov eff).length = 4 * (T.toNat + 1) := by
  constructor
  · exact simulate_eq_flatMap a b c d T st rg se innov eff hT
  · have hn : (T + 1).toNat = T.toNat + 1 := by omega
    unfold simulate
    rw [runFrom_length, hn]

theorem simulate_output_shape_witness :
    ((0 : ℤ) ≤ 1) ∧
    (simulate 0.4 0.4 0.2 0.3 1 0.05 0.3 0.2 0.6 0.8 =
      (List.range ((1 : ℤ).toNat + 1)).flatMap
        (fun k => emitRows (k : ℤ)
          (stateAt ⟨0.05, 0.3, 0.2, 0.6, 0.8⟩ ⟨0.4, 0.4, 0.2, 0.3⟩ k)) ∧
     (simulate 0.4 0.4 0.2 0.3 1 0.05 0.3 0.2 0.6 0.8).length =
       4 * ((1 : ℤ).toNat + 1)) :=
  ⟨by norm_num,
    simulate_output_shape 0.4 0.4 0.2 0.3 1 0.05 0.3 0.2 0.6 0.8 (by norm_num)⟩

/-- Claim C2: when the initial shares and the initial PET adoption lie in
`[0, 1]`, every value emitted by `simulate` lies in `[0, 1]`. -/
theorem simulate_values_in_unit_interval (a b c d : ℚ) (T : ℤ)
    (st rg se innov eff : ℚ)
    (ha : 0 ≤ a ∧ a ≤ 1) (hb : 0 ≤ b ∧ b ≤ 1)
    (hc : 0 ≤ c ∧ c ≤ 1) (hd : 0 ≤ d ∧ d ≤ 1) :
    ∀ r ∈ simulate a b c d T st rg se innov eff, 0 ≤ r.2.2 ∧ r.2.2 ≤ 1 := by
  intro r hr
  exact runFrom_value_bounds _ _ _ _
    ⟨ha.1, ha.2, hb.1, hb.2, hc.1, hc.2, hd.1, hd.2⟩ r hr

theorem simulate_values_in_unit_interval_witness :
    0 ≤ (0.4 : ℚ) ∧ (0.4 : ℚ) ≤ 1 :=
  simulate_values_in_unit_interval 0.4 0.4 0.2 0.3 0 0.05 0.3 0.2 0.6 0.8
    (by norm_num) (by norm_num) (by norm_num) (by norm_num)
    ((0 : ℤ), "Individual power", (0.4 : ℚ))
    (by simp [simulate, runFrom, emitRows])

/-- Claim C5: when all three clamped shares are 0 the renormalization total
is 0, the step performs no division and leaves the shares at their clamped
(all zero) values; when the total is positive each share is divided by the
total; and `simulate` always runs to completion, returning the full-length
output for every input. -/
theorem zero_total_no_division_and_no_error (p : SimParams) (s : SimState) :
    (renormTotal p s = 0 →
      (simStep p s).A = clampedA p s ∧ (simStep p s).C = clampedC p s ∧
      (simStep p s).S = clampedS p s ∧
      (simStep p s).A = 0 ∧ (simStep p s).C = 0 ∧ (simStep p s).S = 0) ∧
    (0 < renormTotal p s →
      (simStep p s).A = clampedA p s / renormTotal p s ∧
      (simStep p s).C = clampedC p s / renormTotal p s ∧
      (simStep p s).S = clampedS p s / renormTotal p s) ∧
    (∀ (a b c d : ℚ) (T : ℤ) (st rg se innov eff : ℚ),
      (simulate a b c d T st rg se innov eff).length = 4 * (T + 1).toNat) := by
  refine ⟨?_, ?_, ?_⟩
  · intro h
    have hlt : ¬ 0 < renormTotal p s := by rw [h]; exact lt_irrefl 0
    obtain ⟨hA, hC, hS⟩ := simStep_shares_of_zero p s h
    exact ⟨by simp [simStep, renormA, if_neg hlt],
      by simp [simStep, renormC, if_neg hlt],
      by simp [simStep, renormS, if_neg hlt], hA, hC, hS⟩
  · exact simStep_shares_of_pos p s
  · intro a b c d T st rg se innov eff
    unfold simulate
    rw [runFrom_length]

theorem zero_total_no_division_and_no_error_witness :
    (simStep ⟨1, 0, 0, 0, 0⟩ ⟨0, 0, 0, 0⟩).A = 0 ∧
    (simStep ⟨1, 0, 0, 0, 0⟩ ⟨0, 0, 0, 0⟩).C = 0 ∧
    (simStep ⟨1, 0, 0, 0, 0⟩ ⟨0, 0, 0, 0⟩).S = 0 := by
  have h := (zero_total_no_division_and_no_error ⟨1, 0, 0, 0, 0⟩ ⟨0, 0, 0, 0⟩).1
    (by norm_num [renormTotal, clampedA, clampedC, clampedS, clip01,
      delta_A, delta_C, delta_S])
  exact ⟨h.2.2.2.1, h.2.2.2.2.1, h.2.2.2.2.2⟩

/-- Claim C9: `simulate` is deterministic and pure — it is a function of its
ten arguments only, so two invocations with identical parameter values
produce identical output sequences. -/
theorem simulate_deterministic (a b c d : ℚ) (T : ℤ)
    (st rg se innov eff : ℚ) (a2 b2 c2 d2 : ℚ) (T2 : ℤ)
    (st2 rg2 se2 innov2 eff2 : ℚ)
    (h : a = a2 ∧ b = b2 ∧ c = c2 ∧ d = d2 ∧ T = T2 ∧ st = st2 ∧ rg = rg2 ∧
      se = se2 ∧ innov = innov2 ∧ eff = eff2) :
    simulate a b c d T st rg se innov eff =
      simulate a2 b2 c2 d2 T2 st2 rg2 se2 innov2 eff2 := by
  obtain ⟨h1, h2, h3, h4, h5, h6, h7, h8, h9, h10⟩ := h
  subst h1 h2 h3 h4 h5 h6 h7 h8 h9 h10
  rfl

theorem simulate_deterministic_witness :
    simulate 0.4 0.4 0.2 0.3 1 0.05 0.3 0.2 0.6 0.8 =
      simulate 0.4 0.4 0.2 0.3 1 0.05 0.3 0.2 0.6 0.8 :=
  simulate_deterministic 0.4 0.4 0.2 0.3 1 0.05 0.3 0.2 0.6 0.8
    0.4 0.4 0.2 0.3 1 0.05 0.3 0.2 0.6 0.8
    ⟨rfl, rfl, rfl, rfl, rfl, rfl, rfl, rfl, rfl, rfl⟩

/-- Claim C10: `simulate` applies no
validation, clamping, or normalization before the first emission — for
`timesteps ≥ 0` the first four output rows are exactly the raw arguments,
even when they lie outside `[0, 1]` or do not sum to 1. -/
theorem initial_emission_is_raw_inputs (a b c d : ℚ) (T : ℤ)
    (st rg se innov eff : ℚ) (hT : 0 ≤ T) :
    (simulate a b c d T st rg se innov eff).take 4 =
      [(0, "Individual power", a), (0, "Corporate power", b),
       (0, "State power", c), (0, "PET adoption", d)] := by
  have hn : (T + 1).toNat = T.toNat + 1 := by omega
  unfold simulate
  rw [hn, runFrom]
  rfl

theorem initial_emission_is_raw_inputs_witness :
    ((0 : ℤ) ≤ 0) ∧
    (simulate 2 (-1) 5 3 0 1 1 1 1 1).take 4 =
      [(0, "Individual power", 2), (0, "Corporate power", -1),
       (0, "State power", 5), (0, "PET adoption", 3)] :=
  ⟨le_refl 0, initial_emission_is_raw_inputs 2 (-1) 5 3 0 1 1 1 1 1 (le_refl 0)⟩

/-- Claim C8 counterexample: the claim says `simulate` fails fast with an
`InvalidParameter` error when `timesteps` is negative, returning no result;
but at `timesteps = -1` the source raises nothing and returns normally with
an empty row list. -/
theorem negative_timesteps_no_error_cex :
    ((-1 : ℤ) < 0) ∧
    simulateResult 0.4 0.4 0.2 0.3 (-1) 0.05 0.3 0.2 0.6 0.8 =
      Except.ok [] := by
  constructor
  · norm_num
  · rfl

/-- Claim C8 as amended: `simulate` performs no parameter validation and
raises no error for any input; a negative `timesteps` yields an empty
output (Python `range` of a non-positive bound), and every call returns
normally. -/
theorem simulate_never_fails (a b c d : ℚ) (T : ℤ)
    (st rg se innov eff : ℚ) :
    (∃ rows, simulateResult a b c d T st rg se innov eff =
      Except.ok rows) ∧
    (T < 0 → simulate a b c d T st rg se innov eff = []) := by
  constructor
  · exact ⟨_, rfl⟩
  · intro hT
    have hz : (T + 1).toNat = 0 := by omega
    unfold simulate
    rw [hz]
    rfl

theorem simulate_never_fails_witness :
    (∃ rows, simulateResult 1 1 1 1 (-5) 1 1 1 1 1 = Except.ok rows) ∧
    simulate 1 1 1 1 (-5) 1 1 1 1 1 = [] := by
  obtain ⟨h1, h2⟩ := simulate_never_fails 1 1 1 1 (-5) 1 1 1 1 1
  exact ⟨h1, h2 (by norm_num)⟩

/-- Claim C1: with `timesteps ≥ 0`, all share/pressure/efficiency inputs in
`[0, 1]` and the three initial shares summing to 1, every recorded timestep
`t` — except one produced by a step whose renormalization total is 0 — has
its three power values summing to 1 within `1e-9`; the three values recorded
at `t` appear in the output of `simulate` tagged with timestep `t`. -/
theorem recordedSharesSumToOne (a b c d : ℚ) (T : ℤ)
    (st rg se innov eff : ℚ) (hT : 0 ≤ T)
    (ha : 0 ≤ a ∧ a ≤ 1) (hb : 0 ≤ b ∧ b ≤ 1)
    (hc : 0 ≤ c ∧ c ≤ 1) (hd : 0 ≤ d ∧ d ≤ 1)
    (hrg : 0 ≤ rg ∧ rg ≤ 1) (hse : 0 ≤ se ∧ se ≤ 1)
    (hinnov : 0 ≤ innov ∧ innov ≤ 1) (heff : 0 ≤ eff ∧ eff ≤ 1)
    (hsum : a + b + c = 1) (t : ℕ) (ht : t ≤ T.toNat)
    (hnz : t = 0 ∨ 0 < renormTotal ⟨st, rg, se, innov, eff⟩
      (stateAt ⟨st, rg, se, innov, eff⟩ ⟨a, b, c, d⟩ (t - 1))) :
    ((t : ℤ), "Individual power",
        (stateAt ⟨st, rg, se, innov, eff⟩ ⟨a, b, c, d⟩ t).A) ∈
      simulate a b c d T st rg se innov eff ∧
    ((t : ℤ), "Corporate power",
        (stateAt ⟨st, rg, se, innov, eff⟩ ⟨a, b, c, d⟩ t).C) ∈
      simulate a b c d T st rg se innov eff ∧
    ((t : ℤ), "State power",
        (stateAt ⟨st, rg, se, innov, eff⟩ ⟨a, b, c, d⟩ t).S) ∈
      simulate a b c d T st rg se innov eff ∧
    |(stateAt ⟨st, rg, se, innov, eff⟩ ⟨a, b, c, d⟩ t).A
      + (stateAt ⟨st, rg, se, innov, eff⟩ ⟨a, b, c, d⟩ t).C
      + (stateAt ⟨st, rg, se, innov, eff⟩ ⟨a, b, c, d⟩ t).S - 1| < 1e-9 := by
  have hmem : ∀ (m : String) (v : ℚ), ((t : ℤ), m, v) ∈ emitRows (t : ℤ)
      (stateAt ⟨st, rg, se, innov, eff⟩ ⟨a, b, c, d⟩ t) →
      ((t : ℤ), m, v) ∈ simulate a b c d T st rg se innov eff := by
    intro m v hv
    rw [simulate_eq_flatMap a b c d T st rg se innov eff hT]
    exact List.mem_flatMap.mpr ⟨t, List.mem_range.mpr (by omega), hv⟩
  refine ⟨hmem _ _ ?_, hmem _ _ ?_, hmem _ _ ?_, ?_⟩
  · simp [emitRows]
  · simp [emitRows]
  · simp [emitRows]
  · cases t with
    | zero =>
      have hz : (stateAt ⟨st, rg, se, innov, eff⟩ ⟨a, b, c, d⟩ 0).A
          + (stateAt ⟨st, rg, se, innov, eff⟩ ⟨a, b, c, d⟩ 0).C
          + (stateAt ⟨st, rg, se, innov, eff⟩ ⟨a, b, c, d⟩ 0).S - 1 = 0 := by
        show a + b + c - 1 = 0
        rw [hsum]; ring
      rw [hz]
      norm_num
    | succ k =>
      rcases hnz with h0 | hpos
      · exact absurd h0 (Nat.succ_ne_zero k)
      · have hk : k + 1 - 1 = k := rfl
        rw [hk] at hpos
        have hsum1 := simStep_sum_of_pos _ _ hpos
        have hz : (stateAt ⟨st, rg, se, innov, eff⟩ ⟨a, b, c, d⟩ (k + 1)).A
            + (stateAt ⟨st, rg, se, innov, eff⟩ ⟨a, b, c, d⟩ (k + 1)).C
            + (stateAt ⟨st, rg, se, innov, eff⟩ ⟨a, b, c, d⟩ (k + 1)).S - 1
            = 0 := by
          show (simStep _ _).A + (simStep _ _).C + (simStep _ _).S - 1 = 0
          rw [hsum1]; ring
        rw [hz]
        norm_num

theorem recordedSharesSumToOne_witness :
    ((0 : ℤ), "Individual power", (0.4 : ℚ)) ∈
      simulate 0.4 0.4 0.2 0.3 1 0.05 0.3 0.2 0.6 0.8 ∧
    ((0 : ℤ), "Corporate power", (0.4 : ℚ)) ∈
      simulate 0.4 0.4 0.2 0.3 1 0.05 0.3 0.2 0.6 0.8 ∧
    ((0 : ℤ), "State power", (0.2 : ℚ)) ∈
      simulate 0.4 0.4 0.2 0.3 1 0.05 0.3 0.2 0.6 0.8 ∧
    |(0.4 : ℚ) + 0.4 + 0.2 - 1| < 1e-9 :=
  recordedSharesSumToOne 0.4 0.4 0.2 0.3 1 0.05 0.3 0.2 0.6 0.8
    (by norm_num) (by norm_num) (by norm_num) (by norm_num) (by norm_num)
    (by norm_num) (by norm_num) (by norm_num) (by norm_num) (by norm_num)
    0 (by norm_num) (Or.inl rfl)

/-- Claim C4 counterexample: the claim says the PET delta reads the
post-clamp, pre-renormalization shares; at parameters
`(step, reg, sec, innovation, eff) = (1, 0, 0, 0, 0)` and state
`(A, C, S, P) = (0.4, 0.2, 0, 0)` the source's step yields `P = 0.1` (it
reads the renormalized shares `2/3` and `1/3`), while the claimed formula
yields `0.06` — so the claim, as stated, is false at this input. -/
theorem pet_delta_preclamp_claim_false :
    (simStep ⟨1, 0, 0, 0, 0⟩ ⟨0.4, 0.2, 0, 0⟩).P = 0.1 ∧
    clip01 ((0 : ℚ) + delta_P_claimed ⟨1, 0, 0, 0, 0⟩ ⟨0.4, 0.2, 0, 0⟩)
      = 0.06 ∧
    (simStep ⟨1, 0, 0, 0, 0⟩ ⟨0.4, 0.2, 0, 0⟩).P ≠
      clip01 ((0 : ℚ) + delta_P_claimed ⟨1, 0, 0, 0, 0⟩ ⟨0.4, 0.2, 0, 0⟩) := by
  refine ⟨?_, ?_, ?_⟩
  · norm_num [simStep, delta_P, renormA, renormC, renormTotal, clampedA,
      clampedC, clampedS, delta_A, delta_C, delta_S, clip01, min_def, max_def]
  · norm_num [delta_P_claimed, clampedA, clampedC, delta_A, delta_C, delta_S,
      clip01, min_def, max_def]
  · norm_num [simStep, delta_P, delta_P_claimed, renormA, renormC, renormTotal,
      clampedA, clampedC, clampedS, delta_A, delta_C, delta_S, clip01,
      min_def, max_def]

/-- Claim C4 as amended: at every timestep the PET adoption update computes
`deltaPet = (regulationStrength * 0.5 + A * 0.3 - innovationDividend * 0.2
- securityPressure * 0.2 - C * 0.3) * stepSize`, where `A` and `C` are the
POST-RENORMALIZATION shares of that same timestep (the step's final
recorded shares), and then sets `P = clamp(P + deltaPet, 0, 1)`. -/
theorem pet_update_uses_renormalized_shares (p : SimParams) (s : SimState) :
    (simStep p s).P = clip01 (s.P +
      (p.reg_strength * 0.5
        + (simStep p s).A * 0.3
        - p.innovation * 0.2
        - p.sec_pressure * 0.2
        - (simStep p s).C * 0.3) * p.step) := rfl

theorem pet_update_uses_renormalized_shares_witness :
    (simStep ⟨1, 0, 0, 0, 0⟩ ⟨0.4, 0.2, 0, 0⟩).P =
      clip01 ((0 : ℚ) +
        ((0 : ℚ) * 0.5
          + (simStep ⟨1, 0, 0, 0, 0⟩ ⟨0.4, 0.2, 0, 0⟩).A * 0.3
          - (0 : ℚ) * 0.2
          - (0 : ℚ) * 0.2
          - (simStep ⟨1, 0, 0, 0, 0⟩ ⟨0.4, 0.2, 0, 0⟩).C * 0.3) * 1) :=
  pet_update_uses_renormalized_shares ⟨1, 0, 0, 0, 0⟩ ⟨0.4, 0.2, 0, 0⟩

/-- Claim C6 (Scenario A): with initial shares `(0.4, 0.4, 0.2)`, initial
PET adoption `0.3`, `timesteps = 1`, `stepSize = 0.05`, dials
`(0.3, 0.2, 0.6, 0.8)`: the t = 0 quadruple is `(0.4, 0.4, 0.2, 0.3)`; the
step-0 deltas are `0.0138`, `0.0105`, `-0.0243`; no clamping triggers; the
post-clamp shares `(0.3757, 0.4138, 0.2105)` sum to 1 so renormalization
leaves them unchanged; and the t = 1 quadruple is
`(0.3757, 0.4138, 0.2105, clamp(0.3 + deltaPet, 0, 1)) =
(0.3757, 0.4138, 0.2105, 0.2989285)`. -/
theorem scenarioA_trace :
    delta_C ⟨0.05, 0.3, 0.2, 0.6, 0.8⟩ ⟨0.4, 0.4, 0.2, 0.3⟩ = 0.0138 ∧
    delta_S ⟨0.05, 0.3, 0.2, 0.6, 0.8⟩ ⟨0.4, 0.4, 0.2, 0.3⟩ = 0.0105 ∧
    delta_A ⟨0.05, 0.3, 0.2, 0.6, 0.8⟩ ⟨0.4, 0.4, 0.2, 0.3⟩ = -0.0243 ∧
    clampedA ⟨0.05, 0.3, 0.2, 0.6, 0.8⟩ ⟨0.4, 0.4, 0.2, 0.3⟩ =
      0.4 + delta_A ⟨0.05, 0.3, 0.2, 0.6, 0.8⟩ ⟨0.4, 0.4, 0.2, 0.3⟩ ∧
    clampedC ⟨0.05, 0.3, 0.2, 0.6, 0.8⟩ ⟨0.4, 0.4, 0.2, 0.3⟩ =
      0.4 + delta_C ⟨0.05, 0.3, 0.2, 0.6, 0.8⟩ ⟨0.4, 0.4, 0.2, 0.3⟩ ∧
    clampedS ⟨0.05, 0.3, 0.2, 0.6, 0.8⟩ ⟨0.4, 0.4, 0.2, 0.3⟩ =
      0.2 + delta_S ⟨0.05, 0.3, 0.2, 0.6, 0.8⟩ ⟨0.4, 0.4, 0.2, 0.3⟩ ∧
    clampedA ⟨0.05, 0.3, 0.2, 0.6, 0.8⟩ ⟨0.4, 0.4, 0.2, 0.3⟩ = 0.3757 ∧
    clampedC ⟨0.05, 0.3, 0.2, 0.6, 0.8⟩ ⟨0.4, 0.4, 0.2, 0.3⟩ = 0.4138 ∧
    clampedS ⟨0.05, 0.3, 0.2, 0.6, 0.8⟩ ⟨0.4, 0.4, 0.2, 0.3⟩ = 0.2105 ∧
    renormTotal ⟨0.05, 0.3, 0.2, 0.6, 0.8⟩ ⟨0.4, 0.4, 0.2, 0.3⟩ = 1 ∧
    simStep ⟨0.05, 0.3, 0.2, 0.6, 0.8⟩ ⟨0.4, 0.4, 0.2, 0.3⟩ =
      ⟨0.3757, 0.4138, 0.2105,
        clip01 (0.3 + delta_P ⟨0.05, 0.3, 0.2, 0.6, 0.8⟩ ⟨0.4, 0.4, 0.2, 0.3⟩)⟩ ∧
    simulate 0.4 0.4 0.2 0.3 1 0.05 0.3 0.2 0.6 0.8 =
      [(0, "Individual power", 0.4), (0, "Corporate power", 0.4),
       (0, "State power", 0.2), (0, "PET adoption", 0.3),
       (1, "Individual power", 0.3757), (1, "Corporate power", 0.4138),
       (1, "State power", 0.2105), (1, "PET adoption", 0.2989285)] := by
  have hstep : simStep ⟨0.05, 0.3, 0.2, 0.6, 0.8⟩ ⟨0.4, 0.4, 0.2, 0.3⟩ =
      ⟨0.3757, 0.4138, 0.2105, 0.2989285⟩ := by
    norm_num [simStep, delta_P, renormA, renormC, renormS, renormTotal,
      clampedA, clampedC, clampedS, delta_A, delta_C, delta_S, clip01,
      min_def, max_def]
  have hpet : clip01 (0.3 +
      delta_P ⟨0.05, 0.3, 0.2, 0.6, 0.8⟩ ⟨0.4, 0.4, 0.2, 0.3⟩)
      = (0.2989285 : ℚ) := by
    have := congrArg SimState.P hstep
    simpa [simStep] using this
  refine ⟨?_, ?_, ?_, ?_, ?_, ?_, ?_, ?_, ?_, ?_, ?_, ?_⟩
  · norm_num [delta_C]
  · norm_num [delta_S]
  · norm_num [delta_A, delta_C, delta_S]
  · norm_num [clampedA, delta_A, delta_C, delta_S, clip01, min_def, max_def]
  · norm_num [clampedC, delta_C, clip01, min_def, max_def]
  · norm_num [clampedS, delta_S, clip01, min_def, max_def]
  · norm_num [clampedA, delta_A, delta_C, delta_S, clip01, min_def, max_def]
  · norm_num [clampedC, delta_C, clip01, min_def, max_def]
  · norm_num [clampedS, delta_S, clip01, min_def, max_def]
  · norm_num [renormTotal, clampedA, clampedC, clampedS, delta_A, delta_C,
      delta_S, clip01, min_def, max_def]
  · rw [hstep, hpet]
  · have hrun : ∀ (p : SimParams) (t : ℤ) (s : SimState),
        runFrom p 2 t s =
          emitRows t s ++ (emitRows (t + 1) (simStep p s) ++ []) :=
      fun _ _ _ => rfl
    show runFrom ⟨0.05, 0.3, 0.2, 0.6, 0.8⟩ ((1 : ℤ) + 1).toNat 0
      ⟨0.4, 0.4, 0.2, 0.3⟩ = _
    have h2 : ((1 : ℤ) + 1).toNat = 2 := rfl
    rw [h2, hrun, hstep]
    rfl

end PowerSim
